import Mathlib

/-!
Verification of the `WrappedField` adapter of the binary-layout crate
(`src/fields/wrapped.rs`).

Embedding conventions:
* A storage buffer (`&[u8]` / `&mut [u8]`) is a `List Nat` of byte values;
  a mutating Rust call `F::write(storage, v)` becomes a function returning
  the new buffer.
* The `Field` trait constants (`Endian`, `OFFSET`, `SIZE`) become a record
  `FieldMeta`; an inner field `F: Field + FieldCopyAccess<HighLevelType = U>`
  becomes a record `RawField U` bundling its metadata with its raw
  `read`/`write` transcoding functions.
* The `LayoutAs<U>` conversion trait for a domain type `T` becomes a record
  `LayoutAs U T` of the two mapping functions.
* Panics are embedded where a claim is about abort behaviour: a collaborator
  that may panic returns `Option`, and Rust statement sequencing becomes
  explicit: a later statement does not run once an earlier one aborted.
Only `src/fields/wrapped.rs` is present in the repository sources; the
collaborating `PrimitiveField` / `FieldView` implementations used by its
tests are modelled from the specification and are marked as such below.
-/

/-- Byte-order tag corresponding to the crate's `LittleEndian` / `BigEndian` /
`NativeEndian` marker types. -/
inductive Endianness where
  | little
  | big
  | native
deriving DecidableEq, Repr

/-- Compile-time constants of the `Field` trait: the byte-order tag `Endian`,
the start offset `OFFSET`, and the optional fixed size `SIZE`
(`none` marks an unsized/trailing field). -/
structure FieldMeta where
  endian : Endianness
  offset : Nat
  size : Option Nat
deriving DecidableEq, Repr

/-- Embedding of the `LayoutAs<U>` trait for a domain type `T`
(src/fields/wrapped.rs lines 36-44): a read mapping `U -> T` applied after
the raw read, and a write mapping `T -> U` applied before the raw write. -/
structure LayoutAs (U T : Type) where
  read : U → T
  write : T → U

/-- Embedding of an inner field `F : Field + FieldCopyAccess<HighLevelType = U>`:
its `Field` constants together with its raw transcoding functions.
`write` returns the updated buffer (the `&mut [u8]` is threaded explicitly). -/
structure RawField (U : Type) where
  meta : FieldMeta
  read : List Nat → U
  write : List Nat → U → List Nat

/-- Embedding of `impl Field for WrappedField` (src/fields/wrapped.rs lines
92-99): `type Endian = F::Endian`, `OFFSET = F::OFFSET`, `SIZE = F::SIZE`. -/
def WrappedField.meta {U : Type} (F : RawField U) : FieldMeta :=
  { endian := F.meta.endian
    offset := F.meta.offset
    size := F.meta.size }

/-- Embedding of `WrappedField::read` (src/fields/wrapped.rs lines 187-190):
`let v = F::read(storage); <T as LayoutAs<U>>::read(v)`. The storage
parameter has immutable-borrow type in the source, which the embedding
reflects by `read` returning only the value, never a new buffer. -/
def WrappedField.read {U T : Type} (L : LayoutAs U T) (F : RawField U)
    (storage : List Nat) : T :=
  let v := F.read storage
  L.read v

/-- Embedding of `WrappedField::write` (src/fields/wrapped.rs lines 197-200):
`let v = <T as LayoutAs<U>>::write(v); F::write(storage, v)`. -/
def WrappedField.write {U T : Type} (L : LayoutAs U T) (F : RawField U)
    (storage : List Nat) (v : T) : List Nat :=
  let v' := L.write v
  F.write storage v'

/-- Abort-instrumented embedding of `WrappedField::write` for a `LayoutAs`
whose write mapping may panic (`none`). The result pairs the outcome with
the final state of the storage buffer: per the source's statement order
(lines 197-200), when `<T as LayoutAs<U>>::write(v)` aborts, the second
statement `F::write(storage, v)` never runs, so the buffer stays as it was. -/
def WrappedField.writeAbort {U T : Type} (convWrite : T → Option U)
    (F : RawField U) (storage : List Nat) (v : T) :
    Option (List Nat) × List Nat :=
  match convWrite v with
  | none => (none, storage)
  | some u => (some (F.write storage u), F.write storage u)

/-- Panic-instrumented embedding of `WrappedField::read` (lines 187-190) with
both collaborators fallible: `none` is a panic, and the conversion only runs
once the inner raw read returned a value. -/
def WrappedField.readOpt {U T : Type} (convRead : U → Option T)
    (rawRead : List Nat → Option U) (storage : List Nat) : Option T :=
  match rawRead storage with
  | none => none
  | some v => convRead v

/-- Panic-instrumented embedding of `WrappedField::write` (lines 197-200) with
both collaborators fallible: the raw write only runs once the conversion
produced an underlying value. -/
def WrappedField.writeOpt {U T : Type} (convWrite : T → Option U)
    (rawWrite : List Nat → U → Option (List Nat)) (storage : List Nat)
    (v : T) : Option (List Nat) :=
  match convWrite v with
  | none => none
  | some u => rawWrite storage u

/-- Event-instrumented embedding of `WrappedField::write` (lines 197-200)
against an inner field whose write also reports the list of raw write events
it performed (each event records the underlying value written). The wrapped
write delegates to the inner write exactly once, so its event trace is
whatever that single delegation produced. -/
def WrappedField.writeEvents {U T : Type} (L : LayoutAs U T)
    (rawWrite : List Nat → U → List Nat × List U) (storage : List Nat)
    (v : T) : List Nat × List U :=
  let v' := L.write v
  rawWrite storage v'

/-- Embedding of `FieldView<S, Self>`. Modelled from the spec: the view type
itself lives in the external `primitive` module; §3 describes it as "a
transient pairing of a field type with a bound storage reference" and §4.4
states that view construction only binds the reference. -/
structure FieldView (S : Type) where
  storage : S

/-- Embedding of `StorageToFieldView<&[u8]> for WrappedField` (src lines
110-114): `fn view(storage) = Self::View::new(storage)`. The conversion and
inner-field parameters mirror the type parameters `T`, `F` of the `impl`;
`FieldView::new` is modelled from the spec as binding the storage reference. -/
def WrappedField.view {U T : Type} (_L : LayoutAs U T) (_F : RawField U)
    (storage : List Nat) : FieldView (List Nat) :=
  FieldView.mk storage

/-- Embedding of `StorageToFieldView<&mut [u8]> for WrappedField` (src lines
125-129), the borrowed-mutable mode: same body `Self::View::new(storage)`. -/
def WrappedField.viewMut {U T : Type} (_L : LayoutAs U T) (_F : RawField U)
    (storage : List Nat) : FieldView (List Nat) :=
  FieldView.mk storage

/-- Embedding of `StorageIntoFieldView<S> for WrappedField` (src lines
140-144), the owned-storage mode: same body `Self::View::new(storage)`. -/
def WrappedField.intoView {U T : Type} (_L : LayoutAs U T) (_F : RawField U)
    (storage : List Nat) : FieldView (List Nat) :=
  FieldView.mk storage

/-- Little-endian byte encoding of a value into `w` bytes. Modelled from the
spec: the primitive field implementation ("fixed- and variable-size
integer/byte-array encoding") is an external collaborator not present under
src/; §8 fixes its behaviour ("expect bytes `[5..9]` to equal the
little-endian encoding"). -/
def leBytes : Nat → Nat → List Nat
  | 0, _ => []
  | w + 1, v => v % 256 :: leBytes w (v / 256)

/-- Little-endian byte decoding, the inverse of `leBytes`. -/
def leDecode : List Nat → Nat
  | [] => 0
  | b :: bs => b + 256 * leDecode bs

/-- Byte encoding for a given byte order. Modelled from the spec: big endian
reverses the byte sequence; the native order of the modelled target is
little endian. -/
def encodeBytes (e : Endianness) (w v : Nat) : List Nat :=
  match e with
  | .big => (leBytes w v).reverse
  | _ => leBytes w v

/-- Byte decoding for a given byte order, the inverse of `encodeBytes`. -/
def decodeBytes (e : Endianness) (bs : List Nat) : Nat :=
  match e with
  | .big => leDecode bs.reverse
  | _ => leDecode bs

/-- Replacement of the bytes at `[off, off + bs.length)` of a buffer by `bs`,
the splice a primitive field's raw write performs on its byte window.
Modelled from the spec (§4.3, §8). -/
def spliceAt (s : List Nat) (off : Nat) (bs : List Nat) : List Nat :=
  s.take off ++ bs ++ s.drop (off + bs.length)

/-- The byte window `[off, off + w)` of a buffer, as read back by §8's
byte-order-fidelity check. -/
def byteWindow (s : List Nat) (off w : Nat) : List Nat :=
  (s.drop off).take w

/-- Modelled from the spec: `PrimitiveField<uN, Endian, OFFSET>` for an
unsigned integer of byte width `w` — the external primitive field
implementation, with `read` decoding and `write` splicing the `w`-byte
window at `off` (§6: "`read(storage) -> U` / `write(storage, U)` raw
transcoding over a byte-range-like storage object"). -/
def primitiveField (e : Endianness) (off w : Nat) : RawField Nat :=
  { meta := { endian := e, offset := off, size := some w }
    read := fun s => decodeBytes e (byteWindow s off w)
    write := fun s v => spliceAt s off (encodeBytes e w v) }

/-- Modelled from the spec: `PrimitiveField<(), Endian, OFFSET>` for the
zero-size unit type, which "must report `SIZE == Some(0)`" (§8) and whose
write mutates nothing ("Zero-sized types do not mutate the storage",
src/fields/wrapped.rs lines 294-296). -/
def unitField (e : Endianness) (off : Nat) : RawField Unit :=
  { meta := { endian := e, offset := off, size := some 0 }
    read := fun _ => ()
    write := fun s _ => s }

/-- The single-field tuple wrapper `Wrapped<T>` of the tests
(src/fields/wrapped.rs lines 210-219). -/
structure Wrapped (T : Type) where
  val : T
deriving DecidableEq, Repr

/-- The `LayoutAs<T> for Wrapped<T>` conversion of the tests
(src/fields/wrapped.rs lines 212-219): `read(v) = Wrapped(v)` and
`write(w) = w.0`. -/
def wrappedLayout (T : Type) : LayoutAs T (Wrapped T) :=
  { read := fun v => Wrapped.mk v
    write := fun w => w.val }

/-- Read access of a view bound to a wrapped field. Modelled from the spec
(§6): a view exposes `read()` "bound to that one buffer", i.e. it performs
the field's read on the storage it holds. -/
def FieldView.readField {U T : Type} (L : LayoutAs U T) (F : RawField U)
    (view : FieldView (List Nat)) : T :=
  WrappedField.read L F view.storage

/-- Write access of a view bound to a wrapped field. Modelled from the spec
(§6): a view exposes `write(v)` bound to its buffer; the result is the view
holding the updated buffer. -/
def FieldView.writeField {U T : Type} (L : LayoutAs U T) (F : RawField U)
    (view : FieldView (List Nat)) (v : T) : FieldView (List Nat) :=
  FieldView.mk (WrappedField.write L F view.storage v)

theorem leBytes_length (w v : Nat) : (leBytes w v).length = w := by
  induction w generalizing v with
  | zero => rfl
  | succ w ih => simp [leBytes, ih]

theorem leDecode_leBytes (w v : Nat) : leDecode (leBytes w v) = v % 256 ^ w := by
  induction w generalizing v with
  | zero => simp [leBytes, leDecode, Nat.mod_one]
  | succ w ih =>
    simp only [leBytes, leDecode, ih]
    have hp : (256 : Nat) ^ (w + 1) = 256 * 256 ^ w := by ring
    rw [hp, Nat.mod_mul]

theorem encodeBytes_length (e : Endianness) (w v : Nat) :
    (encodeBytes e w v).length = w := by
  cases e <;> simp [encodeBytes, leBytes_length]

theorem decodeBytes_encodeBytes (e : Endianness) (w v : Nat) :
    decodeBytes e (encodeBytes e w v) = v % 256 ^ w := by
  cases e <;> simp [encodeBytes, decodeBytes, leDecode_leBytes]

theorem spliceAt_length (s : List Nat) (off : Nat) (bs : List Nat)
    (h : off + bs.length ≤ s.length) :
    (spliceAt s off bs).length = s.length := by
  simp only [spliceAt, List.length_append, List.length_take, List.length_drop]
  omega

theorem byteWindow_spliceAt (s : List Nat) (off : Nat) (bs : List Nat)
    (h : off + bs.length ≤ s.length) :
    byteWindow (spliceAt s off bs) off bs.length = bs := by
  unfold byteWindow spliceAt
  rw [List.append_assoc, List.drop_left' (by simp; omega),
    List.take_left' rfl]

theorem getElem?_spliceAt_frame (s : List Nat) (off : Nat) (bs : List Nat)
    (i : Nat) (hlen : off + bs.length ≤ s.length)
    (h : i < off ∨ off + bs.length ≤ i) :
    (spliceAt s off bs)[i]? = s[i]? := by
  unfold spliceAt
  rw [List.append_assoc]
  have ht : (s.take off).length = off := by simp; omega
  rcases h with h | h
  · rw [List.getElem?_append_left (by rw [ht]; exact h)]
    exact List.getElem?_take_of_lt h
  · rw [List.getElem?_append_right (by rw [ht]; omega), ht,
      List.getElem?_append_right (by omega), List.getElem?_drop]
    have hi : off + bs.length + (i - off - bs.length) = i := by omega
    rw [hi]

theorem byteWindow_eq_of_getElem? (xs ys : List Nat) (off w : Nat)
    (h : ∀ i, off ≤ i → i < off + w → xs[i]? = ys[i]?) :
    byteWindow xs off w = byteWindow ys off w := by
  unfold byteWindow
  apply List.ext_getElem?
  intro j
  by_cases hj : j < w
  · rw [List.getElem?_take_of_lt hj, List.getElem?_take_of_lt hj,
      List.getElem?_drop, List.getElem?_drop]
    exact h (off + j) (Nat.le_add_right _ _) (by omega)
  · rw [List.getElem?_take_eq_none (by omega),
      List.getElem?_take_eq_none (by omega)]

theorem primitiveField_roundtrip (e : Endianness) (off w v : Nat)
    (s : List Nat) (hlen : off + w ≤ s.length) (hv : v < 256 ^ w) :
    (primitiveField e off w).read ((primitiveField e off w).write s v) = v := by
  show decodeBytes e (byteWindow (spliceAt s off (encodeBytes e w v)) off w) = v
  have hl : (encodeBytes e w v).length = w := encodeBytes_length e w v
  have hw := byteWindow_spliceAt s off (encodeBytes e w v) (by rw [hl]; exact hlen)
  rw [hl] at hw
  rw [hw, decodeBytes_encodeBytes]
  exact Nat.mod_eq_of_lt hv

theorem primitiveField_frame (e : Endianness) (off w v : Nat) (s : List Nat)
    (i : Nat) (hlen : off + w ≤ s.length) (h : i < off ∨ off + w ≤ i) :
    ((primitiveField e off w).write s v)[i]? = s[i]? := by
  show (spliceAt s off (encodeBytes e w v))[i]? = s[i]?
  exact getElem?_spliceAt_frame s off (encodeBytes e w v) i
    (by rw [encodeBytes_length]; exact hlen)
    (by rw [encodeBytes_length]; exact h)

/-- C1: for every inner field `F` and every conversion `L` (the `LayoutAs`
implementation of a type `T` over `U`), the composed wrapped field exposes
exactly the inner field's layout constants: same `OFFSET`, same `SIZE`, and
same `Endian`; wrapping never changes layout
(`impl Field for WrappedField`, src/fields/wrapped.rs lines 92-99). -/
theorem wrappedField_preserves_layout {U T : Type} (L : LayoutAs U T)
    (F : RawField U) :
    (WrappedField.meta F).offset = F.meta.offset ∧
    (WrappedField.meta F).size = F.meta.size ∧
    (WrappedField.meta F).endian = F.meta.endian :=
  ⟨rfl, rfl, rfl⟩

/-- C2: round-trip law: writing a domain value `t` through
`WrappedField::write` and reading it back with `WrappedField::read` returns
`t`, for every inner field and conversion (hence for every byte order and
underlying type), given the `LayoutAs` contract obligation (conversion write
followed by conversion read reproduces the value) and the inner field
round-tripping the underlying value it is handed. -/
theorem wrappedField_roundtrip {U T : Type} (L : LayoutAs U T)
    (F : RawField U) (s : List Nat) (t : T)
    (hF : F.read (F.write s (L.write t)) = L.write t)
    (hL : L.read (L.write t) = t) :
    WrappedField.read L F (WrappedField.write L F s t) = t := by
  simp only [WrappedField.read, WrappedField.write, hF, hL]

/-- Witness for C2: the §8 scenario — underlying `u32`, little endian,
offset 5, single-field tuple conversion, value 100000000; the buffer is
zero-initialized and long enough for the 4-byte window at offset 5. -/
theorem wrappedField_roundtrip_witness :
    WrappedField.read (wrappedLayout Nat) (primitiveField .little 5 4)
        (WrappedField.write (wrappedLayout Nat) (primitiveField .little 5 4)
          (List.replicate 12 0) (Wrapped.mk 100000000)) =
      Wrapped.mk 100000000 :=
  wrappedField_roundtrip (wrappedLayout Nat) (primitiveField .little 5 4)
    (List.replicate 12 0) (Wrapped.mk 100000000)
    (primitiveField_roundtrip .little 5 4 100000000 (List.replicate 12 0)
      (by decide) (by decide))
    rfl

/-- C3: `WrappedField::read` is the composition of the two reads: the inner
field's raw read producing a `U`, then the conversion's read mapping
producing the returned `T` (src/fields/wrapped.rs lines 187-190). The
absence of side effects on the storage buffer is structural in the
embedding: the storage parameter has immutable-borrow type in the source,
so `read` consumes a buffer and returns only a value. -/
theorem wrappedField_read_composes {U T : Type} (L : LayoutAs U T)
    (F : RawField U) (s : List Nat) :
    WrappedField.read L F s = L.read (F.read s) :=
  rfl

/-- C4: `WrappedField::write` first applies the conversion's write mapping to
obtain a `U`, then delegates to the inner field's raw write with that `U`
(src/fields/wrapped.rs lines 197-200); against an inner field whose write
performs exactly one raw write event per call, the wrapped write's whole
event trace is that single event, carrying the fully encoded value. -/
theorem wrappedField_write_composes {U T : Type} (L : LayoutAs U T)
    (F : RawField U) (rawWriteEv : List Nat → U → List Nat × List U)
    (s : List Nat) (v : T)
    (hEv : ∀ s' u, rawWriteEv s' u = (F.write s' u, [u])) :
    WrappedField.write L F s v = F.write s (L.write v) ∧
    WrappedField.writeEvents L rawWriteEv s v =
      (F.write s (L.write v), [L.write v]) :=
  ⟨rfl, hEv s (L.write v)⟩

/-- Witness for C4: a 2-byte little-endian inner field at offset 1, with its
event-reporting raw write, on a concrete 4-byte buffer. -/
theorem wrappedField_write_composes_witness :
    WrappedField.write (wrappedLayout Nat) (primitiveField .little 1 2)
        [0, 0, 0, 0] (Wrapped.mk 500) =
      (primitiveField .little 1 2).write [0, 0, 0, 0] 500 ∧
    WrappedField.writeEvents (wrappedLayout Nat)
        (fun s u => ((primitiveField .little 1 2).write s u, [u]))
        [0, 0, 0, 0] (Wrapped.mk 500) =
      ((primitiveField .little 1 2).write [0, 0, 0, 0] 500, [500]) :=
  wrappedField_write_composes (wrappedLayout Nat) (primitiveField .little 1 2)
    (fun s u => ((primitiveField .little 1 2).write s u, [u]))
    [0, 0, 0, 0] (Wrapped.mk 500) (fun _ _ => rfl)

/-- C5: atomicity of write on conversion failure: when the `LayoutAs` write
mapping aborts on the given domain value, `WrappedField::write` leaves the
storage buffer byte-for-byte unchanged (and produces no written buffer),
because per the statement order of src/fields/wrapped.rs lines 197-200 the
raw write never runs. -/
theorem wrappedField_writeAbort_leaves_storage {U T : Type}
    (convWrite : T → Option U) (F : RawField U) (s : List Nat) (v : T)
    (h : convWrite v = none) :
    (WrappedField.writeAbort convWrite F s v).2 = s ∧
    (WrappedField.writeAbort convWrite F s v).1 = none := by
  simp [WrappedField.writeAbort, h]

/-- Witness for C5: a conversion that panics on every value, over a 2-byte
inner field, leaves the concrete buffer `[1, 2, 3, 4]` unchanged. -/
theorem wrappedField_writeAbort_leaves_storage_witness :
    (fun _ : Wrapped Nat => (none : Option Nat)) (Wrapped.mk 7) = none ∧
    (WrappedField.writeAbort (fun _ : Wrapped Nat => (none : Option Nat))
        (primitiveField .little 1 2) [1, 2, 3, 4] (Wrapped.mk 7)).2 =
      [1, 2, 3, 4] :=
  ⟨rfl,
    (wrappedField_writeAbort_leaves_storage
      (fun _ : Wrapped Nat => (none : Option Nat))
      (primitiveField .little 1 2) [1, 2, 3, 4] (Wrapped.mk 7) rfl).1⟩

/-- C6: non-interference frame property: for two wrapped field
instantiations A and B over the same buffer with disjoint byte windows,
writing through A leaves every byte of B's window unchanged, given that A's
inner raw write touches only A's own window. -/
theorem wrappedField_write_noninterference {U T V W : Type}
    (LA : LayoutAs U T) (FA : RawField U) (LB : LayoutAs V W)
    (FB : RawField V) (s : List Nat) (v : T) (wA wB : Nat)
    (hwA : (WrappedField.meta FA).size = some wA)
    (hwB : (WrappedField.meta FB).size = some wB)
    (hframe : ∀ i, i < FA.meta.offset ∨ FA.meta.offset + wA ≤ i →
      (FA.write s (LA.write v))[i]? = s[i]?)
    (hdisj : FA.meta.offset + wA ≤ FB.meta.offset ∨
      FB.meta.offset + wB ≤ FA.meta.offset) :
    byteWindow (WrappedField.write LA FA s v)
        (WrappedField.meta FB).offset wB =
      byteWindow s (WrappedField.meta FB).offset wB := by
  apply byteWindow_eq_of_getElem?
  intro i hi1 hi2
  have hi1' : FB.meta.offset ≤ i := hi1
  have hi2' : i < FB.meta.offset + wB := hi2
  show (FA.write s (LA.write v))[i]? = s[i]?
  apply hframe
  omega

/-- Witness for C6: field A is a 2-byte little-endian wrapped field at
offset 1, field B a 2-byte big-endian wrapped field at offset 5, over one
8-byte buffer; writing 500 through A leaves B's window bytes unchanged. -/
theorem wrappedField_write_noninterference_witness :
    byteWindow (WrappedField.write (wrappedLayout Nat)
        (primitiveField .little 1 2) [9, 9, 9, 9, 9, 9, 9, 9]
        (Wrapped.mk 500)) 5 2 =
      byteWindow [9, 9, 9, 9, 9, 9, 9, 9] 5 2 :=
  wrappedField_write_noninterference (wrappedLayout Nat)
    (primitiveField .little 1 2) (wrappedLayout Nat) (primitiveField .big 5 2)
    [9, 9, 9, 9, 9, 9, 9, 9] (Wrapped.mk 500) 2 2 rfl rfl
    (fun i h => primitiveField_frame .little 1 2
      ((wrappedLayout Nat).write (Wrapped.mk 500)) [9, 9, 9, 9, 9, 9, 9, 9] i
      (by decide) h)
    (Or.inl (by decide))

/-- C7: zero-size no-op: for a wrapped field whose inner field has
`SIZE == Some(0)` and whose inner raw write touches only its (empty) byte
window, `WrappedField::write` returns the buffer byte-for-byte unchanged,
and the wrapped field reports `SIZE == Some(0)`. -/
theorem wrappedField_zero_size_write_noop {U T : Type} (L : LayoutAs U T)
    (F : RawField U) (s : List Nat) (v : T)
    (hsize : F.meta.size = some 0)
    (hframe : ∀ i, i < F.meta.offset ∨ F.meta.offset + 0 ≤ i →
      (F.write s (L.write v))[i]? = s[i]?) :
    WrappedField.write L F s v = s ∧
    (WrappedField.meta F).size = some 0 := by
  constructor
  · show F.write s (L.write v) = s
    apply List.ext_getElem?
    intro i
    apply hframe
    omega
  · simp [WrappedField.meta, hsize]

/-- Witness for C7: the wrapped zero-size unit field at offset 5 leaves the
concrete buffer `[3, 1, 4]` unchanged and reports `SIZE == Some(0)`. -/
theorem wrappedField_zero_size_write_noop_witness :
    WrappedField.write (wrappedLayout Unit) (unitField .little 5) [3, 1, 4]
        (Wrapped.mk ()) = [3, 1, 4] ∧
    (WrappedField.meta (unitField .little 5)).size = some 0 :=
  wrappedField_zero_size_write_noop (wrappedLayout Unit) (unitField .little 5)
    [3, 1, 4] (Wrapped.mk ()) rfl (fun _ _ => rfl)

/-- C8: view construction is transcoding-free, infallible and
side-effect-free in all three storage modes (borrowed immutable, borrowed
mutable, owned): each factory only binds the storage into the view — the
bound storage is the unmodified input buffer — and the constructed view does
not depend on the conversion or on the inner field's transcoding functions
at all (src/fields/wrapped.rs lines 110-114, 125-129, 140-144). -/
theorem wrappedField_view_construction_pure {U T U' T' : Type}
    (L : LayoutAs U T) (F : RawField U) (L' : LayoutAs U' T')
    (F' : RawField U') (s : List Nat) :
    (WrappedField.view L F s).storage = s ∧
    (WrappedField.viewMut L F s).storage = s ∧
    (WrappedField.intoView L F s).storage = s ∧
    WrappedField.view L F s = WrappedField.view L' F' s ∧
    WrappedField.viewMut L F s = WrappedField.viewMut L' F' s ∧
    WrappedField.intoView L F s = WrappedField.intoView L' F' s :=
  ⟨rfl, rfl, rfl, rfl, rfl, rfl⟩

/-- C9: totality under total collaborators: when the conversion's read and
write mappings and the inner field's raw read and write are total (never
`none`), the wrapped field's read and write are total; and any failure that
does occur originates from a collaborator — a failing wrapped read means the
raw read failed or the conversion failed on the raw read's value, and
symmetrically for write. -/
theorem wrappedField_total_of_total {U T : Type}
    (convRead : U → Option T) (convWrite : T → Option U)
    (rawRead : List Nat → Option U)
    (rawWrite : List Nat → U → Option (List Nat))
    (hcr : ∀ u, (convRead u).isSome = true)
    (hcw : ∀ t, (convWrite t).isSome = true)
    (hrr : ∀ s, (rawRead s).isSome = true)
    (hrw : ∀ s u, (rawWrite s u).isSome = true) :
    (∀ s, (WrappedField.readOpt convRead rawRead s).isSome = true) ∧
    (∀ s v, (WrappedField.writeOpt convWrite rawWrite s v).isSome = true) ∧
    (∀ (cr : U → Option T) (rr : List Nat → Option U) (s : List Nat),
      WrappedField.readOpt cr rr s = none →
        rr s = none ∨ ∃ u, rr s = some u ∧ cr u = none) ∧
    (∀ (cw : T → Option U) (rw : List Nat → U → Option (List Nat))
        (s : List Nat) (v : T),
      WrappedField.writeOpt cw rw s v = none →
        cw v = none ∨ ∃ u, cw v = some u ∧ rw s u = none) := by
  refine ⟨?_, ?_, ?_, ?_⟩
  · intro s
    unfold WrappedField.readOpt
    cases hr : rawRead s with
    | none => exact absurd (hrr s) (by simp [hr])
    | some u => exact hcr u
  · intro s v
    unfold WrappedField.writeOpt
    cases hc : convWrite v with
    | none => exact absurd (hcw v) (by simp [hc])
    | some u => exact hrw s u
  · intro cr rr s h
    unfold WrappedField.readOpt at h
    cases hr : rr s with
    | none => exact Or.inl rfl
    | some u =>
      rw [hr] at h
      exact Or.inr ⟨u, rfl, h⟩
  · intro cw rw s v h
    unfold WrappedField.writeOpt at h
    cases hc : cw v with
    | none => exact Or.inl rfl
    | some u =>
      rw [hc] at h
      exact Or.inr ⟨u, rfl, h⟩

/-- Witness for C9: concrete total collaborators (a single-field tuple
conversion in both directions, a raw read returning the buffer length, a raw
write splicing one byte at offset 0) make the wrapped read and write succeed
on the concrete buffer `[5, 6]`. -/
theorem wrappedField_total_of_total_witness :
    (WrappedField.readOpt (fun u : Nat => some (Wrapped.mk u))
        (fun s => some s.length) [5, 6]).isSome = true ∧
    (WrappedField.writeOpt (fun w : Wrapped Nat => some w.val)
        (fun s u => some (spliceAt s 0 (leBytes 1 u))) [5, 6]
        (Wrapped.mk 9)).isSome = true := by
  have h := wrappedField_total_of_total (fun u : Nat => some (Wrapped.mk u))
    (fun w : Wrapped Nat => some w.val) (fun s => some s.length)
    (fun s u => some (spliceAt s 0 (leBytes 1 u)))
    (fun _ => rfl) (fun _ => rfl) (fun _ => rfl) (fun _ _ => rfl)
  exact ⟨h.1 [5, 6], h.2.1 [5, 6] (Wrapped.mk 9)⟩

/-- C10: all three view factories produce the same view shape bound to the
wrapped field, and reading or writing through a view constructed in any mode
is exactly `WrappedField::read` / `WrappedField::write` on the bytes of the
bound storage (write through the two mutating modes, read through all
three). -/
theorem wrappedField_view_access_equiv {U T : Type} (L : LayoutAs U T)
    (F : RawField U) (s : List Nat) (v : T) :
    FieldView.readField L F (WrappedField.view L F s) =
      WrappedField.read L F s ∧
    FieldView.readField L F (WrappedField.viewMut L F s) =
      WrappedField.read L F s ∧
    FieldView.readField L F (WrappedField.intoView L F s) =
      WrappedField.read L F s ∧
    (FieldView.writeField L F (WrappedField.viewMut L F s) v).storage =
      WrappedField.write L F s v ∧
    (FieldView.writeField L F (WrappedField.intoView L F s) v).storage =
      WrappedField.write L F s v :=
  ⟨rfl, rfl, rfl, rfl, rfl⟩
